import Mathlib

/-!
# Verification of the Birdhouse deployment pipeline (`pipeline.js`)

This development gives a shallow embedding of the release pipeline of the
Birdhouse framework (`pipeline.js`) and proves properties of it that the
specification states.

Conventions:
* JavaScript strings are Lean `String`s; JS `parseInt` is modelled with an
  `Option Nat` whose `none` stands for `NaN`.
* Fallible operations return `Except String`.
* The effectful top level (`main`, the SFTP operations) is modelled as a
  function from an environment (flags, configuration presence, remote
  state) to the list of observable events it performs plus its outcome.
-/

namespace Birdhouse

open List

/-! ## JavaScript string primitives

These model the exact JS operations `pipeline.js` uses (`split`, `join`,
`startsWith`, `path.basename`, `path.extname`, `parseInt`).  They are kept
structural so that concrete runs evaluate by `decide`/`rfl`. -/

/-- `String.prototype.split(sep)` for a one-character separator, on char
lists: `"" → [[]]`, separators produce empty groups. -/
def splitOnChar (c : Char) : List Char → List (List Char)
  | [] => [[]]
  | x :: xs =>
    let r := splitOnChar c xs
    if x = c then [] :: r
    else
      match r with
      | [] => [[x]]
      | g :: gs => (x :: g) :: gs

/-- JS `s.split(sep)` for a one-character separator. -/
def jsSplit (sep : Char) (s : String) : List String :=
  (splitOnChar sep s.toList).map (fun g => String.mk g)

/-- JS `Array.prototype.join(sep)`. -/
def joinWith (sep : String) : List String → String
  | [] => ""
  | [x] => x
  | x :: y :: xs => x ++ sep ++ joinWith sep (y :: xs)

/-- JS `s.startsWith(p)`. -/
def jsStartsWith (s p : String) : Bool :=
  List.isPrefixOf p.toList s.toList

/-- `path.basename` for slash-separated paths. -/
def basename (p : String) : String :=
  (jsSplit '/' p).getLastD ""

/-- Index of the last dot in a character list, if any. -/
def lastDotIdx : List Char → Option Nat
  | [] => none
  | c :: cs =>
    match lastDotIdx cs with
    | some i => some (i + 1)
    | none => if c = '.' then some 0 else none

/-- `path.extname` of a file name: the suffix from the last dot on, empty
when there is no dot or when the only dot is the leading character. -/
def extname (name : String) : String :=
  let cs := name.toList
  match lastDotIdx cs with
  | none => ""
  | some 0 => ""
  | some i => String.mk (cs.drop i)

/-- Numeric value of a list of decimal digits. -/
def digitsVal (ds : List Char) : Nat :=
  ds.foldl (fun a c => a * 10 + (c.toNat - 48)) 0

/-- JS `parseInt(s, 10)`: parses the leading decimal digits of `s`;
`none` models `NaN` (no leading digit). -/
def jsParseInt (s : String) : Option Nat :=
  let ds := s.toList.takeWhile Char.isDigit
  if ds.isEmpty then none else some (digitsVal ds)

/-! ## Version resolver (`getNewVersion`, pipeline.js lines 823-842) -/

/-- The regular expression `^\d+(\.\d+){0,3}$` from `getNewVersion`:
between one and four dot-separated nonempty all-digit groups. -/
def matchesVersionFormat (s : String) : Bool :=
  let parts := jsSplit '.' s
  decide (1 ≤ parts.length) && decide (parts.length ≤ 4) &&
    parts.all (fun p => !p.isEmpty && p.toList.all Char.isDigit)

/-- JS `versionParts[3] = v` followed by `join(".")`: assigning index 3 of
a shorter array creates holes, which `join` renders as empty strings. -/
def jsSetIndex3 (parts : List String) (v : String) : List String :=
  if parts.length ≥ 4 then parts.set 3 v
  else parts ++ List.replicate (3 - parts.length) "" ++ [v]

/-- Lines 827-829 of pipeline.js: the no-explicit-target bump.
`versionParts[3] = (parseInt(versionParts[3], 10) + 1).toString()`.
When the split has fewer than four parts, `versionParts[3]` is `undefined`,
`parseInt` yields `NaN`, and `NaN + 1` prints as `"NaN"`. -/
def bumpFourthComponent (currentVersion : String) : String :=
  let versionParts := jsSplit '.' currentVersion
  let newPart :=
    match versionParts.get? 3 with
    | none => "NaN"
    | some s =>
      match jsParseInt s with
      | none => "NaN"
      | some n => toString (n + 1)
  joinWith "." (jsSetIndex3 versionParts newPart)

/-- `while (versionParts.length < 4) versionParts.push('0')`. -/
def padVersionTo4 (parts : List String) : List String :=
  parts ++ List.replicate (4 - parts.length) "0"

/-- `versionFlagIndex = process.argv.findIndex(arg => arg === '-version' || arg === '-v')`. -/
def versionFlagIndex (argv : List String) : Int :=
  match argv.findIdx? (fun a => a = "-version" || a = "-v") with
  | some i => (i : Int)
  | none => -1

/-- `getNewVersion(currentVersion)` (pipeline.js lines 823-842), reading the
version flag and the token after it from `process.argv`.  A thrown
`Error` is modelled as `Except.error` carrying the message. -/
def getNewVersion (argv : List String) (currentVersion : String) : Except String String :=
  if versionFlagIndex argv ≠ -1 then
    match argv.get? ((versionFlagIndex argv).toNat + 1) with
    | none => .ok (bumpFourthComponent currentVersion)
    | some newVersion =>
      if jsStartsWith newVersion "-" then .ok (bumpFourthComponent currentVersion)
      else if !matchesVersionFormat newVersion then
        .error "Invalid version number format. Expected format is x, x.x, x.x.x, or x.x.x.x"
      else .ok (joinWith "." (padVersionTo4 (jsSplit '.' newVersion)))
  else .ok currentVersion

/-- The bump the specification describes, in its own words: zero-pad the
version to four numeric components, then increment only the fourth.
(Stated from the spec for comparison with `bumpFourthComponent`.) -/
def specVersionBump (v : String) : String :=
  let padded := padVersionTo4 (jsSplit '.' v)
  let fourth := (jsParseInt ((padded.get? 3).getD "0")).getD 0
  joinWith "." (padded.take 3 ++ [toString (fourth + 1)])

example : bumpFourthComponent "1.2.3.4" = "1.2.3.5" := by decide
example : bumpFourthComponent "1.2.3" = "1.2.3.NaN" := by decide
example : bumpFourthComponent "7" = "7...NaN" := by decide
example : specVersionBump "1.2.3" = "1.2.3.1" := by decide
example : matchesVersionFormat "1.2.3" = true := by decide
example : matchesVersionFormat "1.2.3x" = false := by decide
example : getNewVersion ["node", "pipeline.js", "-v", "2.0"] "1.0.0.0" = .ok "2.0.0.0" := rfl
example : getNewVersion ["node", "pipeline.js", "-v", "-forced"] "1.0.0.0" = .ok "1.0.0.1" := rfl

lemma toList_ne_nil_of_ne_empty {s : String} (h : s ≠ "") : s.toList ≠ [] := by
  intro hc
  exact h (String.toList_inj.mp (by simpa using hc))

lemma jsParseInt_of_digits {p : String} (hne : p ≠ "")
    (hdig : p.toList.all Char.isDigit = true) :
    jsParseInt p = some (digitsVal p.toList) := by
  have htw : p.toList.takeWhile Char.isDigit = p.toList :=
    List.takeWhile_eq_self_iff.mpr (by simpa using hdig)
  have hnil : p.toList ≠ [] := toList_ne_nil_of_ne_empty hne
  have hemp : p.toList.isEmpty = false := by simpa [List.isEmpty_iff] using hnil
  simp only [jsParseInt, htw, hemp, Bool.false_eq_true, if_false]

/-- **C2 counterexample.**  The claim fails for the valid three-component
version `"1.2.3"`: the no-target bump does not zero-pad, it appends the
literal `NaN` (JS `parseInt(undefined) + 1`), while the spec bump would
produce `"1.2.3.1"`. -/
theorem C2_counterexample_no_zero_padding :
    matchesVersionFormat "1.2.3" = true ∧
    getNewVersion ["node", "pipeline.js", "-v"] "1.2.3" = .ok "1.2.3.NaN" ∧
    specVersionBump "1.2.3" = "1.2.3.1" ∧
    ("1.2.3.NaN" : String) ≠ "1.2.3.1" :=
  ⟨by decide, rfl, by decide, by decide⟩

/-- **C2 (amended).**  Only for version strings that already have four
components does bumping without an explicit target increment the fourth
numeric component by one and leave the rest unchanged; in particular
`"1.2.3.4"` becomes `"1.2.3.5"`.  (For shorter valid versions the code
appends `NaN` instead of zero-padding; see the counterexample.) -/
theorem C2_bump_increments_fourth_of_four_components
    (v p0 p1 p2 p3 : String)
    (hsplit : jsSplit '.' v = [p0, p1, p2, p3])
    (h3 : p3 ≠ "" ∧ p3.toList.all Char.isDigit = true) :
    bumpFourthComponent v =
      joinWith "." [p0, p1, p2, toString (digitsVal p3.toList + 1)] := by
  obtain ⟨h3ne, h3dig⟩ := h3
  have hp : jsParseInt p3 = some (digitsVal p3.toList) :=
    jsParseInt_of_digits h3ne h3dig
  simp [bumpFourthComponent, hsplit, hp, jsSetIndex3]

/-- Witness for C2: the amended theorem at the specification example
`"1.2.3.4" → "1.2.3.5"`. -/
theorem C2_bump_witness : bumpFourthComponent "1.2.3.4" = "1.2.3.5" := by
  have h := C2_bump_increments_fourth_of_four_components "1.2.3.4" "1" "2" "3" "4"
    (by decide) ⟨by decide, by decide⟩
  rw [h]; decide

/-- **C10.**  When the token after `-version`/`-v` is absent or itself
starts with a dash, `getNewVersion` treats the invocation as having no
explicit target: it bumps the current version and raises no format
error. -/
theorem C10_flag_like_token_is_no_target (argv : List String) (cur : String)
    (hidx : versionFlagIndex argv ≠ -1)
    (hnext : ((argv.get? ((versionFlagIndex argv).toNat + 1)).map
      (fun t => jsStartsWith t "-")).getD true = true) :
    getNewVersion argv cur = .ok (bumpFourthComponent cur) := by
  unfold getNewVersion
  rw [if_pos hidx]
  cases hcase : argv.get? ((versionFlagIndex argv).toNat + 1) with
  | none => rfl
  | some t =>
    rw [hcase] at hnext
    simp at hnext
    simp [hnext]

/-- Witness for C10: `node pipeline.js -v -forced` bumps rather than
rejecting `-forced` as a malformed version. -/
theorem C10_witness :
    versionFlagIndex ["node", "pipeline.js", "-v", "-forced"] ≠ -1 ∧
    getNewVersion ["node", "pipeline.js", "-v", "-forced"] "1.2.3.4" =
      .ok (bumpFourthComponent "1.2.3.4") :=
  ⟨by decide, C10_flag_like_token_is_no_target _ _ (by decide) (by decide)⟩

/-! ## File manifest builder
(`readFilesFromDirectory` lines 928-957, `getFilesToCache` lines 892-926) -/

/-- A directory tree entry as the walk sees it: a plain file with its size,
or a subdirectory with its listing (in `readdir` order). -/
inductive FsEntry : Type where
  | file (name : String) (size : Nat) : FsEntry
  | dir (name : String) (entries : List FsEntry) : FsEntry

/-- `readFilesFromDirectory(directory, files)`: walks the listing in order,
skips entries whose name starts with a dot, recurses into directories, and
appends `directory + "/" + name` for every file whose `path.extname` is
not in the ignored list (the accumulating `files` argument mirrors the JS
array that is mutated in place). -/
def readFilesFromDirectory (ignoredFileTypes : List String) :
    String → List FsEntry → List String → List String
  | _, [], files => files
  | directory, .file name _ :: rest, files =>
    readFilesFromDirectory ignoredFileTypes directory rest
      (if jsStartsWith name "." then files
       else if ignoredFileTypes.contains (extname name) then files
       else files ++ [directory ++ "/" ++ name])
  | directory, .dir name sub :: rest, files =>
    readFilesFromDirectory ignoredFileTypes directory rest
      (if jsStartsWith name "." then files
       else readFilesFromDirectory ignoredFileTypes (directory ++ "/" ++ name) sub files)

/-- `[...new Set(l)]`: de-duplication keeping first occurrences. -/
def jsSetDedup (l : List String) : List String :=
  l.foldl (fun acc x => if x ∈ acc then acc else acc ++ [x]) []

/-- The hardcoded seed of `filesToCache` (pipeline.js lines 893-908). -/
def baseFilesToCache : List String :=
  ["index.html", "sitemap.xml", "robots.txt", "service-worker.js",
   "config-sw.js", "everywhere.js", "config.js", "updateNotes.js",
   "manifest.json", "admin-style.css", "style.css",
   "Birdhouse/default-style.css", "Birdhouse/filesToCache.js",
   "Birdhouse/service-worker-registration.js"]

/-- `getFilesToCache()`: seeds the list, walks every configured directory
plus `Birdhouse/src` and `Birdhouse/fonts`, then de-duplicates and sorts
(`[...new Set(filesToCache)].sort()`, the default lexicographic string
sort).  `fsDirs` gives the on-disk listing of each top-level directory
(missing directories are created empty, hence the empty listing). -/
def getFilesToCache (fsDirs : String → List FsEntry)
    (directoriesToInclude ignoredFileTypes : List String) : List String :=
  let dirs := directoriesToInclude ++ ["Birdhouse/src", "Birdhouse/fonts"]
  let files := dirs.foldl
    (fun acc d => readFilesFromDirectory ignoredFileTypes d (fsDirs d) acc)
    baseFilesToCache
  (jsSetDedup files).insertionSort (· ≤ ·)

example :
    readFilesFromDirectory [".md"] "assets"
      [.file "a.js" 10, .file "b.md" 5, .file "c.css" 3] [] =
      ["assets/a.js", "assets/c.css"] := by
  simp [readFilesFromDirectory, jsStartsWith, extname, lastDotIdx]

example :
    readFilesFromDirectory [] "d"
      [.dir "sub" [.file "x.js" 1], .file ".hidden" 0, .file "y.css" 2] [] =
      ["d/sub/x.js", "d/y.css"] := by
  simp [readFilesFromDirectory, jsStartsWith, extname, lastDotIdx]

example :
    getFilesToCache (fun _ => []) [] [] =
      (jsSetDedup baseFilesToCache).insertionSort (· ≤ ·) := by
  simp [getFilesToCache, readFilesFromDirectory]

/-! ### Properties of the walk and the manifest -/

lemma readFiles_append (ignoredFileTypes : List String) (directory : String)
    (entries : List FsEntry) (files : List String) :
    ∀ pre, readFilesFromDirectory ignoredFileTypes directory entries (pre ++ files) =
      pre ++ readFilesFromDirectory ignoredFileTypes directory entries files := by
  induction directory, entries, files using readFilesFromDirectory.induct ignoredFileTypes with
  | case1 d files => intro pre; simp [readFilesFromDirectory]
  | case2 d name sz rest files ih =>
    intro pre
    rw [readFilesFromDirectory, readFilesFromDirectory]
    have hstep :
        (if jsStartsWith name "." then pre ++ files
         else if ignoredFileTypes.contains (extname name) then pre ++ files
         else (pre ++ files) ++ [d ++ "/" ++ name]) =
        pre ++ (if jsStartsWith name "." then files
         else if ignoredFileTypes.contains (extname name) then files
         else files ++ [d ++ "/" ++ name]) := by
      by_cases h1 : jsStartsWith name "." <;>
        by_cases h2 : extname name ∈ ignoredFileTypes <;> simp [h1, h2]
    rw [hstep]
    exact ih pre
  | case3 d name sub rest files ih1 ih2 =>
    intro pre
    rw [readFilesFromDirectory, readFilesFromDirectory]
    have hstep :
        (if jsStartsWith name "." then pre ++ files
         else readFilesFromDirectory ignoredFileTypes (d ++ "/" ++ name) sub (pre ++ files)) =
        pre ++ (if jsStartsWith name "." then files
         else readFilesFromDirectory ignoredFileTypes (d ++ "/" ++ name) sub files) := by
      by_cases h1 : jsStartsWith name "." <;> simp [h1, ih1 pre]
    rw [hstep]
    exact ih2 pre

lemma mem_readFiles_of_mem_acc (ignoredFileTypes : List String) (directory : String)
    (entries : List FsEntry) {files : List String} {x : String} (hx : x ∈ files) :
    x ∈ readFilesFromDirectory ignoredFileTypes directory entries files := by
  have h2 : readFilesFromDirectory ignoredFileTypes directory entries files =
      files ++ readFilesFromDirectory ignoredFileTypes directory entries [] := by
    simpa using readFiles_append ignoredFileTypes directory entries [] files
  rw [h2]
  exact List.mem_append_left _ hx

lemma jsSetDedup_nodup (l : List String) : (jsSetDedup l).Nodup := by
  suffices h : ∀ (l acc : List String), acc.Nodup →
      (l.foldl (fun a x => if x ∈ a then a else a ++ [x]) acc).Nodup by
    exact h l [] (by simp)
  intro l
  induction l with
  | nil => intro acc h; simpa using h
  | cons x xs ih =>
    intro acc h
    by_cases hx : x ∈ acc
    · simpa [hx] using ih acc h
    · have hnd : (acc ++ [x]).Nodup := by simp [List.nodup_append, h, hx]
      simpa [hx] using ih (acc ++ [x]) hnd

/-- **C4.**  For every directory tree and configuration, the file manifest
`getFilesToCache` returns is lexicographically sorted and duplicate-free,
and recomputing it on the unchanged tree yields the identical output (the
builder is a pure function of the tree, so idempotence is definitional). -/
theorem C4_manifest_sorted_nodup_idempotent (fsDirs : String → List FsEntry)
    (directoriesToInclude ignoredFileTypes : List String) :
    (getFilesToCache fsDirs directoriesToInclude ignoredFileTypes).Sorted (· ≤ ·) ∧
    (getFilesToCache fsDirs directoriesToInclude ignoredFileTypes).Nodup ∧
    getFilesToCache fsDirs directoriesToInclude ignoredFileTypes =
      getFilesToCache fsDirs directoriesToInclude ignoredFileTypes := by
  refine ⟨List.sorted_insertionSort _ _, ?_, rfl⟩
  exact ((List.perm_insertionSort (· ≤ ·) _).symm).nodup (jsSetDedup_nodup _)

/-! ### Extension filtering (C8) -/

/-- Real directory listings have nonempty names without a path
separator. -/
def goodName (s : String) : Bool := !s.isEmpty && !s.toList.contains '/'

/-- Wellformedness of a tree: every name in it is a `goodName`. -/
def forestWellFormed : List FsEntry → Bool
  | [] => true
  | .file name _ :: rest => goodName name && forestWellFormed rest
  | .dir name sub :: rest =>
    goodName name && forestWellFormed sub && forestWellFormed rest

lemma goodName_of_mem_forest :
    ∀ {entries : List FsEntry} {name : String} {sz : Nat},
      forestWellFormed entries = true → FsEntry.file name sz ∈ entries →
      goodName name = true
  | [], _, _, _, hmem => by simp at hmem
  | e :: rest, name, sz, hwf, hmem => by
    rcases List.mem_cons.mp hmem with heq | hmem'
    · cases e with
      | file n s =>
        cases heq
        rw [forestWellFormed] at hwf
        exact (Bool.and_eq_true_iff.mp hwf).1
      | dir n sub => cases heq
    · cases e with
      | file n s =>
        rw [forestWellFormed] at hwf
        exact goodName_of_mem_forest (Bool.and_eq_true_iff.mp hwf).2 hmem'
      | dir n sub =>
        rw [forestWellFormed] at hwf
        exact goodName_of_mem_forest (Bool.and_eq_true_iff.mp hwf).2 hmem'

lemma string_append_assoc (a b c : String) : (a ++ b) ++ c = a ++ (b ++ c) := by
  apply String.ext
  simp [String.data_append]

lemma string_append_left_cancel {a b c : String} (h : a ++ b = a ++ c) : b = c := by
  apply String.ext
  have hd : a.data ++ b.data = a.data ++ c.data := by
    have := congrArg String.data h
    simpa [String.data_append] using this
  exact List.append_cancel_left hd

lemma slash_mem_append_mid (a b : String) : '/' ∈ (a ++ "/" ++ b).toList := by
  have h : (a ++ "/" ++ b).data = a.data ++ ['/'] ++ b.data := by
    simp [String.data_append]
  show '/' ∈ (a ++ "/" ++ b).data
  rw [h]
  simp

/-- Every path the walk produces (beyond the accumulator) lies under the
walked directory, and if its relative part has no separator then it names a
non-hidden direct file child whose extension is not ignored. -/
lemma readFiles_mem_shape (ignoredFileTypes : List String) (directory : String)
    (entries : List FsEntry) (files : List String) :
    ∀ x ∈ readFilesFromDirectory ignoredFileTypes directory entries files,
      x ∈ files ∨ ∃ s, x = directory ++ "/" ++ s ∧
        (('/' ∈ s.toList) ∨
          (∃ sz, FsEntry.file s sz ∈ entries ∧ jsStartsWith s "." = false ∧
            ignoredFileTypes.contains (extname s) = false)) := by
  induction directory, entries, files using readFilesFromDirectory.induct ignoredFileTypes with
  | case1 d files =>
    intro x hx
    exact Or.inl (by simpa [readFilesFromDirectory] using hx)
  | case2 d name sz rest files ih =>
    intro x hx
    rw [readFilesFromDirectory] at hx
    rcases ih x hx with hxf | ⟨s, rfl, hs⟩
    · by_cases h1 : jsStartsWith name "." = true
      · rw [dif_pos h1] at hxf
        exact Or.inl hxf
      · rw [dif_neg h1] at hxf
        by_cases h2 : ignoredFileTypes.contains (extname name) = true
        · rw [dif_pos h2] at hxf
          exact Or.inl hxf
        · rw [dif_neg h2] at hxf
          rcases List.mem_append.mp hxf with hxf' | hxf'
          · exact Or.inl hxf'
          · refine Or.inr ⟨name, by simpa using hxf', Or.inr ⟨sz, by simp,
              by simpa using h1, by simpa using h2⟩⟩
    · exact Or.inr ⟨s, rfl, hs.imp id (fun ⟨sz', hm, hg⟩ =>
        ⟨sz', List.mem_cons_of_mem _ hm, hg⟩)⟩
  | case3 d name sub rest files ih1 ih2 =>
    intro x hx
    rw [readFilesFromDirectory] at hx
    rcases ih2 x hx with hxf | ⟨s, rfl, hs⟩
    · by_cases h1 : jsStartsWith name "." = true
      · rw [dif_pos h1] at hxf
        exact Or.inl hxf
      · rw [dif_neg h1] at hxf
        rcases ih1 x hxf with hxf' | ⟨s', rfl, _⟩
        · exact Or.inl hxf'
        · refine Or.inr ⟨name ++ "/" ++ s', ?_, Or.inl (slash_mem_append_mid name s')⟩
          simp [string_append_assoc]
    · exact Or.inr ⟨s, rfl, hs.imp id (fun ⟨sz', hm, hg⟩ =>
        ⟨sz', List.mem_cons_of_mem _ hm, hg⟩)⟩

/-- A non-hidden direct file child with a non-ignored extension is always
collected by the walk. -/
lemma readFiles_mem_of_file (ignoredFileTypes : List String) {name : String} {sz : Nat} :
    ∀ (entries : List FsEntry) (directory : String) (files : List String),
      FsEntry.file name sz ∈ entries → jsStartsWith name "." = false →
      ignoredFileTypes.contains (extname name) = false →
      directory ++ "/" ++ name ∈
        readFilesFromDirectory ignoredFileTypes directory entries files
  | [], _, _, hmem, _, _ => by simp at hmem
  | e :: rest, d, files, hmem, h1, h2 => by
    rcases List.mem_cons.mp hmem with heq | hmem'
    · cases e with
      | file n s =>
        cases heq
        rw [readFilesFromDirectory, if_neg (by simp [h1]),
          if_neg (by intro hc; rw [h2] at hc; simp at hc)]
        exact mem_readFiles_of_mem_acc _ _ _ (List.mem_append_right _ (by simp))
      | dir n sub => cases heq
    · cases e with
      | file n s =>
        rw [readFilesFromDirectory]
        exact readFiles_mem_of_file ignoredFileTypes rest d _ hmem' h1 h2
      | dir n sub =>
        rw [readFilesFromDirectory]
        exact readFiles_mem_of_file ignoredFileTypes rest d _ hmem' h1 h2

/-- **C8.**  In every walked directory, a direct file child whose extension
is in the ignored list never reaches the manifest, and every non-hidden
direct file child whose extension is not in the list does (the tree is
wellformed: names are nonempty and contain no separator). -/
theorem C8_ignored_extensions_filtered (ignoredFileTypes : List String)
    (directory name : String) (sz : Nat) (entries : List FsEntry)
    (hwf : forestWellFormed entries = true)
    (hmem : FsEntry.file name sz ∈ entries) :
    (ignoredFileTypes.contains (extname name) = true →
      directory ++ "/" ++ name ∉
        readFilesFromDirectory ignoredFileTypes directory entries []) ∧
    (jsStartsWith name "." = false →
      ignoredFileTypes.contains (extname name) = false →
      directory ++ "/" ++ name ∈
        readFilesFromDirectory ignoredFileTypes directory entries []) := by
  constructor
  · intro hext hcontra
    rcases readFiles_mem_shape ignoredFileTypes directory entries [] _ hcontra with
      h | ⟨s, heq, hs⟩
    · simp at h
    · have hsname : name = s :=
        string_append_left_cancel (a := directory ++ "/") heq
      subst hsname
      have hgood : goodName name = true := goodName_of_mem_forest hwf hmem
      rcases hs with hslash | ⟨sz', _, _, hext'⟩
      · have : '/' ∉ name.toList := by
          simp only [goodName, Bool.and_eq_true, Bool.not_eq_true'] at hgood
          simpa using hgood.2
        exact this hslash
      · rw [hext] at hext'
        simp at hext'
  · intro h1 h2
    exact readFiles_mem_of_file ignoredFileTypes entries directory [] hmem h1 h2

/-! ## The pre-upload sort (`uploadFilesToServer`, pipeline.js lines 1011-1023) -/

/-- The comparator passed to `filesToUpload.sort(...)`: the service worker
and the two config files are pushed to the end so that clients never see a
new cache manifest before its assets exist. -/
def uploadSortCompare (a b : String) : Int :=
  let filenameA := basename a
  let filenameB := basename b
  if filenameA = "service-worker.js" then 1
  else if filenameB = "service-worker.js" then -1
  else if filenameA = "config-sw.js" then 1
  else if filenameB = "config-sw.js" then -1
  else if filenameA = "config.js" then 1
  else if filenameB = "config.js" then -1
  else 0

/-- Insert one element into an already arranged list, placing it before the
first element the comparator puts strictly after it. -/
def jsSortInsert (cmp : String → String → Int) (x : String) : List String → List String
  | [] => [x]
  | y :: ys => if cmp x y < 0 then x :: y :: ys else y :: jsSortInsert cmp x ys

/-- `Array.prototype.sort(cmp)` modelled as a stable, comparator-respecting
insertion sort. -/
def jsSort (cmp : String → String → Int) (l : List String) : List String :=
  l.foldl (fun acc x => jsSortInsert cmp x acc) []

/-- The files the comparator defers to the end of the upload. -/
def isLastUploadFile (f : String) : Bool :=
  decide (basename f = "service-worker.js") ||
  decide (basename f = "config-sw.js") ||
  decide (basename f = "config.js")

example :
    jsSort uploadSortCompare
      ["service-worker.js", "a.js", "config.js", "b.css", "config-sw.js"] =
      ["a.js", "b.css", "config.js", "config-sw.js", "service-worker.js"] := by decide

lemma not_isLastUploadFile_iff {a : String} :
    isLastUploadFile a = false ↔
      basename a ≠ "service-worker.js" ∧ basename a ≠ "config-sw.js" ∧
        basename a ≠ "config.js" := by
  simp [isLastUploadFile, and_assoc]

lemma isLastUploadFile_iff {a : String} :
    isLastUploadFile a = true ↔
      basename a = "service-worker.js" ∨ basename a = "config-sw.js" ∨
        basename a = "config.js" := by
  simp [isLastUploadFile, or_assoc]

lemma mem_jsSortInsert {cmp : String → String → Int} {x z : String} :
    ∀ {l : List String}, z ∈ jsSortInsert cmp x l → z = x ∨ z ∈ l
  | [], h => by simpa [jsSortInsert] using h
  | y :: ys, h => by
    by_cases hc : cmp x y < 0
    · simpa [jsSortInsert, hc, or_assoc] using h
    · simp only [jsSortInsert, hc, if_false, List.mem_cons] at h
      rcases h with h | h
      · exact Or.inr (by simp [h])
      · rcases mem_jsSortInsert h with h' | h'
        · exact Or.inl h'
        · exact Or.inr (List.mem_cons_of_mem _ h')

lemma jsSortInsert_perm (cmp : String → String → Int) (x : String) :
    ∀ l : List String, jsSortInsert cmp x l ~ x :: l
  | [] => by simp [jsSortInsert]
  | y :: ys => by
    by_cases hc : cmp x y < 0
    · simp [jsSortInsert, hc]
    · simp only [jsSortInsert, hc, if_false]
      exact ((jsSortInsert_perm cmp x ys).cons y).trans (List.Perm.swap x y ys)

lemma jsSort_foldl_perm (cmp : String → String → Int) :
    ∀ (l acc : List String),
      l.foldl (fun a x => jsSortInsert cmp x a) acc ~ acc ++ l
  | [], acc => by simp
  | x :: xs, acc => by
    have h1 : (x :: xs).foldl (fun a x => jsSortInsert cmp x a) acc
        = xs.foldl (fun a x => jsSortInsert cmp x a) (jsSortInsert cmp x acc) := rfl
    rw [h1]
    exact ((jsSort_foldl_perm cmp xs _).trans
      (((jsSortInsert_perm cmp x acc).append_right xs).trans
        (@List.perm_middle _ x acc xs).symm))

lemma jsSort_perm (cmp : String → String → Int) (l : List String) :
    jsSort cmp l ~ l := by
  simpa using jsSort_foldl_perm cmp l []

lemma uploadSortCompare_lt_of_not_last_of_last {a b : String}
    (ha : isLastUploadFile a = false) (hb : isLastUploadFile b = true) :
    uploadSortCompare a b < 0 := by
  obtain ⟨ha1, ha2, ha3⟩ := not_isLastUploadFile_iff.mp ha
  rcases isLastUploadFile_iff.mp hb with hb' | hb' | hb' <;>
    simp [uploadSortCompare, ha1, ha2, ha3, hb']

lemma uploadSortCompare_not_lt_of_last_of_not_last {a b : String}
    (ha : isLastUploadFile a = true) (hb : isLastUploadFile b = false) :
    ¬uploadSortCompare a b < 0 := by
  obtain ⟨hb1, hb2, hb3⟩ := not_isLastUploadFile_iff.mp hb
  rcases isLastUploadFile_iff.mp ha with ha' | ha' | ha' <;>
    simp [uploadSortCompare, ha', hb1, hb2, hb3]

lemma uploadSortCompare_not_lt_of_not_last {a b : String}
    (ha : isLastUploadFile a = false) (hb : isLastUploadFile b = false) :
    ¬uploadSortCompare a b < 0 := by
  obtain ⟨ha1, ha2, ha3⟩ := not_isLastUploadFile_iff.mp ha
  obtain ⟨hb1, hb2, hb3⟩ := not_isLastUploadFile_iff.mp hb
  simp [uploadSortCompare, ha1, ha2, ha3, hb1, hb2, hb3]

/-- Inserting into a front-nonlast/back-last split keeps that shape. -/
lemma jsSortInsert_partition {front back : List String} {x : String}
    (hf : ∀ f ∈ front, isLastUploadFile f = false)
    (hb : ∀ f ∈ back, isLastUploadFile f = true) :
    ∃ front' back', jsSortInsert uploadSortCompare x (front ++ back) = front' ++ back' ∧
      (∀ f ∈ front', isLastUploadFile f = false) ∧
      (∀ f ∈ back', isLastUploadFile f = true) := by
  induction front with
  | nil =>
    simp only [List.nil_append]
    by_cases hx : isLastUploadFile x = true
    · refine ⟨[], jsSortInsert uploadSortCompare x back, rfl, by simp, ?_⟩
      intro f hfm
      rcases mem_jsSortInsert hfm with rfl | hfm
      · exact hx
      · exact hb f hfm
    · rw [Bool.not_eq_true] at hx
      cases back with
      | nil => exact ⟨[x], [], by simp [jsSortInsert], by simpa using hx, by simp⟩
      | cons b bs =>
        have hlt : uploadSortCompare x b < 0 :=
          uploadSortCompare_lt_of_not_last_of_last hx (hb b (by simp))
        exact ⟨[x], b :: bs, by simp [jsSortInsert, hlt], by simpa using hx, hb⟩
  | cons y ys ih =>
    have hy : isLastUploadFile y = false := hf y (by simp)
    have hnlt : ¬uploadSortCompare x y < 0 := by
      by_cases hx : isLastUploadFile x = true
      · exact uploadSortCompare_not_lt_of_last_of_not_last hx hy
      · exact uploadSortCompare_not_lt_of_not_last (Bool.not_eq_true _ |>.mp hx) hy
    obtain ⟨front', back', heq, hf', hb'⟩ := ih (fun f hfm => hf f (by simp [hfm]))
    refine ⟨y :: front', back', ?_, ?_, hb'⟩
    · simp [jsSortInsert, hnlt, heq]
    · intro f hfm
      rcases List.mem_cons.mp hfm with rfl | hfm
      · exact hy
      · exact hf' f hfm

/-! ## CLI flags (pipeline.js lines 124-143) -/

def initializeFlag (argv : List String) : Bool :=
  argv.contains "-init" || argv.contains "-initialize"

def updateFlag (argv : List String) : Bool :=
  argv.contains "-update" || argv.contains "-u"

def updateRootFlag (argv : List String) : Bool :=
  argv.contains "-root" || argv.contains "-r"

def productionFlag (argv : List String) : Bool :=
  argv.contains "-production" || argv.contains "-p"

def stagingFlag (argv : List String) : Bool :=
  argv.contains "-staging" || argv.contains "-s"

def cacheFlag (argv : List String) : Bool :=
  argv.contains "-cache" || argv.contains "-c"

def rollbackFlag (argv : List String) : Bool :=
  argv.contains "-rollback" || argv.contains "-r"

def backupFlag (argv : List String) : Bool :=
  argv.contains "-backup" || argv.contains "-b"

def deleteFlag (argv : List String) : Bool :=
  argv.contains "-delete" || argv.contains "-d"

def helpFlag (argv : List String) : Bool :=
  argv.contains "-help" || argv.contains "-h"

def minifyFlag (argv : List String) : Bool :=
  argv.contains "-minify" || argv.contains "-m"

def skipCompressedUploadFlag (argv : List String) : Bool :=
  argv.contains "-skipCompU" || argv.contains "-su"

def disableStatisticsFlag (argv : List String) : Bool :=
  argv.contains "-noLog" || argv.contains "-nl"

def generateFaviconsFlag (argv : List String) : Bool :=
  argv.contains "-genFavicons" || argv.contains "-gf"

def generateIconsFlag (argv : List String) : Bool :=
  argv.contains "-genIcons" || argv.contains "-gi"

def generateAppIconsFlag (argv : List String) : Bool :=
  argv.contains "-genAppIcons" || argv.contains "-ga"

def localFlag (argv : List String) : Bool :=
  argv.contains "-l" || argv.contains "-local"

/-! ## Observable events of a run -/

/-- One observable effect of the pipeline process: local filesystem
operations, console output and SFTP operations. -/
inductive Ev : Type where
  | unlinkLockFile : Ev
  | writeLockFile : Ev
  | runScript (path : String) : Ev
  | copyFile (src dest : String) : Ev
  | writeFile (path : String) : Ev
  | logMsg (msg : String) : Ev
  | sftpConnect : Ev
  | sftpMkdirRemote (path : String) : Ev
  | sftpPut (remotePath : String) : Ev
  | sftpRmdirRemote (path : String) : Ev
  | sftpDownloadDir (src : String) : Ev
  | sftpUploadDir (dest : String) : Ev
  | sftpClose : Ev
  | writeStatistics : Ev
deriving DecidableEq

/-- Events that mutate the remote server. -/
def isRemoteWrite : Ev → Bool
  | .sftpMkdirRemote _ => true
  | .sftpPut _ => true
  | .sftpRmdirRemote _ => true
  | .sftpUploadDir _ => true
  | _ => false

/-! ## SFTP operations (pipeline.js lines 992-1252) -/

/-- `path.dirname` for slash-separated paths. -/
def dirname (p : String) : String :=
  let parts := jsSplit '/' p
  if parts.length ≤ 1 then "." else joinWith "/" parts.dropLast

/-- The remote path of an uploaded file:
`/{applicationPath}/{file without its leading ./ or /}`. -/
def uploadRemotePath (applicationPath file : String) : String :=
  let relativeFilePath :=
    if jsStartsWith file "./" then file.drop 2
    else if jsStartsWith file "/" then file.drop 1
    else file
  "/" ++ applicationPath ++ "/" ++ relativeFilePath

/-- `uploadFilesToDirectory` (lines 1077-1104): one `fastPut` per file of
the batch, in order, then — when an htaccess file is configured — a final
`fastPut` of `.htaccess`. -/
def uploadFilesToDirectory (filesToUpload : List String) (applicationPath : String)
    (htaccessFile : Option String) : List Ev :=
  filesToUpload.map (fun f => Ev.sftpPut (uploadRemotePath applicationPath f)) ++
    match htaccessFile with
    | some _ => [Ev.sftpPut ("/" ++ applicationPath ++ "/.htaccess")]
    | none => []

/-- `createDirectoriesOnServer` (lines 1053-1075): the distinct parent
directories, shallowest first, skipping `"."`. -/
def createDirectoriesOnServer (filesToUpload : List String)
    (applicationPath : String) : List Ev :=
  let directories := jsSetDedup (filesToUpload.map dirname)
  let sorted := directories.insertionSort
    (fun a b => (jsSplit '/' a).length ≤ (jsSplit '/' b).length)
  (sorted.filter (fun d => d ≠ ".")).map (fun dir =>
    Ev.sftpMkdirRemote ("/" ++ applicationPath ++ "/" ++
      (if jsStartsWith dir "./" then dir.drop 2 else dir)))

/-- `copySFTPDirectory` (lines 1128-1157): download the source tree to a
local temp directory, then re-upload it over the destination. -/
def copySFTPDirectory (src dest : String) : List Ev :=
  [Ev.sftpDownloadDir src, Ev.sftpUploadDir dest]

/-- `uploadFiles` (lines 1106-1126): optional backup (delete a stale
backup, recreate it, copy the primary into it), then directory creation,
then the file puts. -/
def uploadFiles (filesToUpload : List String) (applicationPath : String)
    (backupRequested primaryExists backupExists : Bool)
    (htaccessFile : Option String) : List Ev :=
  (if backupRequested then
    if primaryExists then
      (if backupExists then [Ev.sftpRmdirRemote (applicationPath ++ "_BACKUP")] else []) ++
        [Ev.sftpMkdirRemote (applicationPath ++ "_BACKUP")] ++
        copySFTPDirectory applicationPath (applicationPath ++ "_BACKUP")
    else [Ev.logMsg "    No directory to backup."]
   else []) ++
  createDirectoriesOnServer filesToUpload applicationPath ++
  uploadFilesToDirectory filesToUpload applicationPath htaccessFile

/-- Remote and configuration state `uploadFilesToServer` depends on.
`connectOk` and `uploadOk` say whether the connection attempt and the
remote operations succeed; a `false` lands in the `catch` of the
corresponding `try`.  `uploadBatch` below is the batch construction of
lines 996-1023 (compressed-skip filter, `filesToCache.js`, the database
walk, then the deferring sort); it is factored out of
`uploadFilesToServer` so that theorems can name it. -/
structure UploadEnv where
  productionFlag : Bool
  stagingFlag : Bool
  backupFlag : Bool
  skipCompressedUploadFlag : Bool
  compressedDir : String
  databaseDir : Option String
  databaseEntries : List FsEntry
  ignoredFileTypes : List String
  htaccessFile : Option String
  connectOk : Bool
  uploadOk : Bool
  primaryExists : Bool
  backupExists : Bool

/-- `uploadFilesToServer` (lines 992-1051): the event trace plus the JS
return value — `none` models `undefined` (neither production nor staging
set, nothing happens), `some 0` the caught remote error, and on success
the number of uploaded files.  The `finally` block closes the connection
in every path that entered the `try`.  On a remote failure the events the
server saw before the error are environment-dependent and are collapsed
into the error log entry. -/
def uploadBatch (env : UploadEnv) (filesToCache : List String) : List String :=
  let files := if env.skipCompressedUploadFlag then
      filesToCache.filter (fun f => !jsStartsWith f env.compressedDir)
    else filesToCache
  let filesToUpload := files ++ ["./Birdhouse/filesToCache.js"]
  let filesToUpload :=
    match env.databaseDir with
    | some d => readFilesFromDirectory env.ignoredFileTypes d env.databaseEntries filesToUpload
    | none => filesToUpload
  jsSort uploadSortCompare filesToUpload

def uploadFilesToServer (env : UploadEnv) (filesToCache : List String)
    (applicationPath : String) : List Ev × Option Nat :=
  if !(env.productionFlag || env.stagingFlag) then ([], none)
  else
    let filesToUpload := uploadBatch env filesToCache
    if !env.connectOk then
      ([Ev.logMsg "upload error with elapsed time", Ev.sftpClose], some 0)
    else if !env.uploadOk then
      ([Ev.sftpConnect, Ev.logMsg "upload error with elapsed time", Ev.sftpClose], some 0)
    else
      ([Ev.sftpConnect] ++
        uploadFiles filesToUpload applicationPath env.backupFlag env.primaryExists
          env.backupExists env.htaccessFile ++ [Ev.sftpClose],
        some filesToUpload.length)

/-- `rollback(applicationPath)` (lines 1159-1188): connect, check whether
the `_BACKUP` tree exists, copy it over the primary path when it does and
only report in red when it does not; the `finally` closes the
connection. -/
def rollback (connectOk backupExists : Bool) (applicationPath : String) : List Ev :=
  let backupApplicationPath := applicationPath ++ "_BACKUP"
  [Ev.logMsg "Rolling back to backup..."] ++
  (if !connectOk then [Ev.logMsg "    An error occurred:"]
   else
    [Ev.sftpConnect] ++
      (if backupExists then copySFTPDirectory backupApplicationPath applicationPath
       else [Ev.logMsg "No backup version found for rollback."])) ++
  [Ev.sftpClose, Ev.logMsg "Rollback complete."]

/-- `deleteDirectoryFromServer` (lines 1205-1244). -/
def deleteDirectoryFromServer (argv : List String) (connectOk : Bool)
    (applicationPath : String) : List Ev :=
  if !(productionFlag argv || stagingFlag argv) then
    [Ev.logMsg "No production (-p) or staging flag (-s) set. Aborting deletion."]
  else if !deleteFlag argv then
    [Ev.logMsg "No delete flag (-d) set. Aborting deletion."]
  else
    (if connectOk then [Ev.sftpConnect, Ev.sftpRmdirRemote applicationPath]
     else [Ev.logMsg "    An error occurred:"]) ++ [Ev.sftpClose]

/-- **C1.** For every upload batch, after the pre-upload sort of
`uploadFilesToServer` the files whose base name is `service-worker.js`,
`config-sw.js` or `config.js` occupy the last positions of the upload
order, and every other file of the batch comes before them; the sorted
list is a permutation of the batch. -/
theorem C1_service_worker_and_config_upload_last (files : List String) :
    jsSort uploadSortCompare files ~ files ∧
    ∃ front back, jsSort uploadSortCompare files = front ++ back ∧
      (∀ f ∈ front, isLastUploadFile f = false) ∧
      (∀ f ∈ back, isLastUploadFile f = true) := by
  refine ⟨jsSort_perm _ files, ?_⟩
  suffices h : ∀ (l acc : List String),
      (∃ front back, acc = front ++ back ∧
        (∀ f ∈ front, isLastUploadFile f = false) ∧
        (∀ f ∈ back, isLastUploadFile f = true)) →
      ∃ front back, l.foldl (fun a x => jsSortInsert uploadSortCompare x a) acc = front ++ back ∧
        (∀ f ∈ front, isLastUploadFile f = false) ∧
        (∀ f ∈ back, isLastUploadFile f = true) by
    exact h files [] ⟨[], [], by simp, by simp, by simp⟩
  intro l
  induction l with
  | nil => intro acc h; simpa using h
  | cons x xs ih =>
    rintro acc ⟨front, back, rfl, hf, hb⟩
    exact ih _ (jsSortInsert_partition hf hb)

/-! ## The whole run (`main`, lines 242-421, and the module top level) -/

/-- Environment of a whole pipeline run: command line, configuration file
state, on-disk state and remote state.  The `has…` fields model JS
truthiness of the required configuration keys; `missingFiles` lists the
manifest entries that do not exist on disk. -/
structure MainEnv where
  argv : List String
  lockFileExists : Bool
  pipelineConfigLoads : Bool
  sftpConfigLoads : Bool
  productionPath : Option String
  stagingPath : Option String
  hasIgnoredFileTypes : Bool
  hasDirectoriesToInclude : Bool
  hasSftpHost : Bool
  hasSftpPort : Bool
  hasSftpUsername : Bool
  hasSftpPassword : Bool
  preReleaseScripts : List String
  postReleaseScripts : List String
  rootFiles : List String
  currentVersion : Option String
  fsDirs : String → List FsEntry
  directoriesToInclude : List String
  ignoredFileTypes : List String
  directoriesToExcludeFromCache : List String
  missingFiles : List String
  statisticsFile : Bool
  compressedDir : String
  databaseDir : Option String
  htaccessFile : Option String
  connectOk : Bool
  uploadOk : Bool
  primaryExists : Bool
  backupExists : Bool

/-- The missing-key scan of `main` (lines 292-304); `sftpLoaded` says
whether an sftp config object is present (it is null under `-l`). -/
def missingConfigs (env : MainEnv) (sftpLoaded : Bool) : List String :=
  (if !env.hasIgnoredFileTypes then ["ignoredFileTypes"] else []) ++
  (if !env.hasDirectoriesToInclude then ["directoriesToInclude"] else []) ++
  (if env.productionPath.isNone then ["productionPath"] else []) ++
  (if env.stagingPath.isNone then ["stagingPath"] else []) ++
  (if sftpLoaded then
    (if !env.hasSftpHost then ["sftpHost"] else []) ++
    (if !env.hasSftpPort then ["sftpPort"] else []) ++
    (if !env.hasSftpUsername then ["sftpUsername"] else []) ++
    (if !env.hasSftpPassword then ["sftpPassword"] else [])
   else [])

/-- `getApplicationPath()` (lines 1254-1256). -/
def getApplicationPath (env : MainEnv) (argv : List String) : String :=
  if productionFlag argv then env.productionPath.getD "undefined"
  else env.stagingPath.getD "undefined"

def cacheFile : String := "./Birdhouse/filesToCache.js"

/-- The `UploadEnv` of a run. -/
def uploadEnvOf (env : MainEnv) : UploadEnv where
  productionFlag := productionFlag env.argv
  stagingFlag := stagingFlag env.argv
  backupFlag := backupFlag env.argv
  skipCompressedUploadFlag := skipCompressedUploadFlag env.argv
  compressedDir := env.compressedDir
  databaseDir := env.databaseDir
  databaseEntries := env.fsDirs (env.databaseDir.getD "")
  ignoredFileTypes := env.ignoredFileTypes
  htaccessFile := env.htaccessFile
  connectOk := env.connectOk
  uploadOk := env.uploadOk
  primaryExists := env.primaryExists
  backupExists := env.backupExists

/-- Outcome of `main()`: a `process.exit` inside it, a rejection escaping
it, or normal completion. -/
inductive MainOutcome : Type where
  | exited (code : Nat) : MainOutcome
  | threw (msg : String) : MainOutcome
  | completed : MainOutcome
deriving DecidableEq

/-- `main()` (lines 242-421) as its event trace plus outcome, transcribed
branch by branch: lock creation, the early-exit modes, the missing-key
check, the root copy, version resolution and the two version writes, the
service-worker config write, manifest construction, the cache-file write
with its `statSync` over the filtered manifest (which throws on a missing
file), `checkFilesExist`, and the rollback / delete / upload branches,
followed by the unconditional statistics step. -/
def runMain (env : MainEnv) : List Ev × MainOutcome :=
  let argv := env.argv
  let evs0 : List Ev :=
    if localFlag argv || productionFlag argv || stagingFlag argv then
      [Ev.writeLockFile] else []
  if initializeFlag argv then (evs0 ++ [Ev.logMsg "initializeProject"], .exited 0)
  else
  let evs1 := evs0 ++
    (if (productionFlag argv || stagingFlag argv || localFlag argv) &&
        !deleteFlag argv && !rollbackFlag argv && !env.preReleaseScripts.isEmpty then
      env.preReleaseScripts.map Ev.runScript
     else [])
  if updateFlag argv then
    (evs1 ++ [Ev.writeFile "./config.js", Ev.writeFile "./pipeline-config.js"], .exited 0)
  else if updateRootFlag argv then
    (evs1 ++ env.rootFiles.map (fun f => Ev.copyFile ("Birdhouse/root/" ++ f) ("./" ++ f)),
      .exited 0)
  else if generateFaviconsFlag argv then (evs1 ++ [Ev.logMsg "generateImageSizes"], .exited 0)
  else if generateIconsFlag argv then (evs1 ++ [Ev.logMsg "generateImageSizes"], .exited 0)
  else if generateAppIconsFlag argv then (evs1 ++ [Ev.logMsg "generateAppIcons"], .exited 0)
  else
  if !(missingConfigs env (!localFlag argv)).isEmpty && !localFlag argv then
    (evs1 ++ [Ev.logMsg "Error: Missing necessary configuration values"], .exited 1)
  else
  let evs2 := evs1 ++
    (if productionFlag argv || stagingFlag argv || localFlag argv then
      env.rootFiles.map (fun f => Ev.copyFile ("Birdhouse/root/" ++ f) ("./" ++ f))
     else [])
  match env.currentVersion with
  | none => (evs2, .threw "Could not find version in config.js")
  | some currentVersion =>
    match (if versionFlagIndex argv ≠ -1 then getNewVersion argv currentVersion
           else .ok currentVersion) with
    | .error msg => (evs2, .threw msg)
    | .ok _newVersion =>
      let evs3 := evs2 ++ [Ev.writeFile "./config.js", Ev.writeFile "./service-worker.js"]
      let evs4 := evs3 ++ [Ev.writeFile "./config-sw.js"]
      let filesToCache := getFilesToCache env.fsDirs env.directoriesToInclude env.ignoredFileTypes
      let filteredFilesToCache := filesToCache.filter
        (fun f => !env.directoriesToExcludeFromCache.any (fun d => jsStartsWith f d))
      let evs5 := evs4 ++ (if cacheFlag argv then [Ev.writeFile cacheFile] else [])
      match filteredFilesToCache.find?
          (fun f => f != cacheFile && env.missingFiles.contains f) with
      | some missing => (evs5, .threw ("ENOENT: no such file or directory, stat " ++ missing))
      | none =>
        if filesToCache.any (fun f => env.missingFiles.contains f) then
          (evs5, .threw "One or more files are missing")
        else
        let evs6 := evs5 ++
          (if !deleteFlag argv && minifyFlag argv then [Ev.logMsg "minifyFiles"] else [])
        let applicationPath := getApplicationPath env argv
        let branch :=
          if rollbackFlag argv && !localFlag argv then
            rollback env.connectOk env.backupExists applicationPath
          else if deleteFlag argv then
            (if localFlag argv then [Ev.logMsg "clearDirectory"]
             else deleteDirectoryFromServer argv env.connectOk applicationPath)
          else
            (if skipCompressedUploadFlag argv then [Ev.logMsg "skipping image compression"]
             else [Ev.logMsg "compressImages"]) ++
            (if localFlag argv then
              filesToCache.map (fun f => Ev.copyFile f "Birdhouse/dist") ++
                (match env.htaccessFile with
                 | some h => [Ev.copyFile h "Birdhouse/dist/.htaccess"]
                 | none => [])
             else (uploadFilesToServer (uploadEnvOf env) filesToCache applicationPath).1)
        let filesUploaded : Option Nat :=
          if rollbackFlag argv && !localFlag argv then none
          else if deleteFlag argv then none
          else if localFlag argv then none
          else some (((uploadFilesToServer (uploadEnvOf env) filesToCache applicationPath).2).getD 0)
        let evs7 := evs6 ++ branch
        let evs8 := evs7 ++
          (if (productionFlag argv || stagingFlag argv || localFlag argv) &&
              !deleteFlag argv && !rollbackFlag argv &&
              (decide (0 < filesUploaded.getD 0) || localFlag argv) then
            [Ev.logMsg "Release process completed successfully."] ++
              (if (productionFlag argv || stagingFlag argv) && !deleteFlag argv &&
                  !rollbackFlag argv && !env.postReleaseScripts.isEmpty then
                env.postReleaseScripts.map Ev.runScript
               else [])
           else [Ev.logMsg "Done."])
        let evs9 := evs8 ++
          (if !disableStatisticsFlag argv && env.statisticsFile then
            [Ev.writeStatistics] else [])
        (evs9, .completed)

/-- The whole process (module top level, lines 22-199 and 1439-1442):
initial lock removal, `help()`, the two config `require`s (each exiting
with code 1 on failure), then `main()`.  The top-level
`.catch(err => console.error(() => {...}))` passes a *function* to
`console.error` — nothing of the error is printed and the inner
`exitPipeline` never runs — and the following `.then(() => exitPipeline())`
exits with code 0, so a rejected `main` also terminates with exit
code 0. -/
def runPipeline (env : MainEnv) : List Ev × Nat :=
  let argv := env.argv
  let evs0 : List Ev := if env.lockFileExists then [Ev.unlinkLockFile] else []
  if !initializeFlag argv && (helpFlag argv || argv.length == 2) then
    (evs0 ++ [Ev.logMsg "help"], 0)
  else if !initializeFlag argv && !env.pipelineConfigLoads then
    (evs0 ++ [Ev.logMsg "Error loading pipeline-config.js"], 1)
  else if !initializeFlag argv && !localFlag argv && !env.sftpConfigLoads then
    (evs0 ++ [Ev.logMsg "Error loading sftp config file"], 1)
  else
    let lockCreated := localFlag argv || productionFlag argv || stagingFlag argv
    match runMain env with
    | (mevs, .exited c) =>
      (evs0 ++ mevs ++ (if c == 0 && lockCreated then [Ev.unlinkLockFile] else []), c)
    | (mevs, .completed) =>
      (evs0 ++ mevs ++ (if lockCreated then [Ev.unlinkLockFile] else []), 0)
    | (mevs, .threw _msg) =>
      (evs0 ++ mevs ++ [Ev.logMsg "console.error(function)"] ++
        (if lockCreated then [Ev.unlinkLockFile] else []), 0)

/-! ## Concrete runs -/

/-- A fully configured production-release run against an empty project
tree: every required key present, version `1.0.0.0`, no pre or post
release scripts, remote reachable. -/
def baseEnv : MainEnv where
  argv := ["node", "pipeline.js", "-p"]
  lockFileExists := false
  pipelineConfigLoads := true
  sftpConfigLoads := true
  productionPath := some "my_app_production"
  stagingPath := some "my_app_staging"
  hasIgnoredFileTypes := true
  hasDirectoriesToInclude := true
  hasSftpHost := true
  hasSftpPort := true
  hasSftpUsername := true
  hasSftpPassword := true
  preReleaseScripts := []
  postReleaseScripts := []
  rootFiles := []
  currentVersion := some "1.0.0.0"
  fsDirs := fun _ => []
  directoriesToInclude := []
  ignoredFileTypes := []
  directoriesToExcludeFromCache := []
  missingFiles := []
  statisticsFile := true
  compressedDir := "uploads"
  databaseDir := none
  htaccessFile := none
  connectOk := true
  uploadOk := true
  primaryExists := true
  backupExists := false

/-- A production release invoked with the malformed target version
`-v 1.2.3x`. -/
def envMalformedVersion : MainEnv :=
  { baseEnv with argv := ["node", "pipeline.js", "-p", "-v", "1.2.3x"] }

/-- A production release in which the manifest file `sitemap.xml` does not
exist on disk. -/
def envMissingFile : MainEnv :=
  { baseEnv with missingFiles := ["sitemap.xml"] }

/-! ## C3: malformed target version -/

/-- **C3 counterexample.**  In the release invocation
`node pipeline.js -p -v 1.2.3x` the malformed target is rejected, but the
pipeline lock file has already been written before the rejection, so the
run does not leave every file untouched; moreover the rejection ends with
exit code 0 and the error text is never printed (the broken top-level
handler).  -/
theorem C3_counterexample_lock_file_written_before_rejection :
    (runMain envMalformedVersion).2 =
      .threw "Invalid version number format. Expected format is x, x.x, x.x.x, or x.x.x.x" ∧
    Ev.writeLockFile ∈ (runMain envMalformedVersion).1 ∧
    (runPipeline envMalformedVersion).2 = 0 :=
  ⟨by decide, by decide, by decide⟩

/-- **C3 (amended).**  For every run whose CLI target version fails the
pattern, the run is rejected with the format error before the version is
applied anywhere: before the rejection the only effects are the pipeline
lock file, the pre-release scripts, and the root-directory copies — in
particular neither the app config file nor the service-worker file nor any
other pipeline artifact has been written. -/
theorem C3_malformed_target_rejected_before_version_writes (env : MainEnv) (t : String)
    (hinit : initializeFlag env.argv = false)
    (hupd : updateFlag env.argv = false)
    (hroot : updateRootFlag env.argv = false)
    (hgf : generateFaviconsFlag env.argv = false)
    (hgi : generateIconsFlag env.argv = false)
    (hga : generateAppIconsFlag env.argv = false)
    (hmc : (missingConfigs env (!localFlag env.argv)).isEmpty = true)
    (hver : env.currentVersion.isSome = true)
    (hidx : versionFlagIndex env.argv ≠ -1)
    (htok : env.argv.get? ((versionFlagIndex env.argv).toNat + 1) = some t)
    (hdash : jsStartsWith t "-" = false)
    (hfmt : matchesVersionFormat t = false) :
    (runMain env).2 =
      .threw "Invalid version number format. Expected format is x, x.x, x.x.x, or x.x.x.x" ∧
    ∀ e ∈ (runMain env).1, e = Ev.writeLockFile ∨ (∃ s, e = Ev.runScript s) ∨
      ∃ a b, e = Ev.copyFile a b := by
  obtain ⟨v, hv⟩ := Option.isSome_iff_exists.mp hver
  have htok2 : env.argv[(versionFlagIndex env.argv).toNat + 1]? = some t := by
    simpa using htok
  have hgnv : getNewVersion env.argv v =
      .error "Invalid version number format. Expected format is x, x.x, x.x.x, or x.x.x.x" := by
    simp [getNewVersion, hidx, htok2, hdash, hfmt]
  have key : runMain env =
      ((if localFlag env.argv || productionFlag env.argv || stagingFlag env.argv then
          [Ev.writeLockFile] else []) ++
        ((if (productionFlag env.argv || stagingFlag env.argv || localFlag env.argv) &&
            !deleteFlag env.argv && !rollbackFlag env.argv &&
            !env.preReleaseScripts.isEmpty then
          env.preReleaseScripts.map Ev.runScript else []) ++
         (if productionFlag env.argv || stagingFlag env.argv || localFlag env.argv then
           env.rootFiles.map (fun f => Ev.copyFile ("Birdhouse/root/" ++ f) ("./" ++ f))
          else [])),
        .threw "Invalid version number format. Expected format is x, x.x, x.x.x, or x.x.x.x") := by
    simp [runMain, hinit, hupd, hroot, hgf, hgi, hga, hmc, hv, hidx, hgnv]
  rw [key]
  refine ⟨rfl, ?_⟩
  intro e he
  simp only [List.mem_append] at he
  rcases he with he | he | he
  · split at he
    · exact Or.inl (by simpa using he)
    · simp at he
  · split at he
    · obtain ⟨s, _, rfl⟩ := List.mem_map.mp he
      exact Or.inr (Or.inl ⟨s, rfl⟩)
    · simp at he
  · split at he
    · obtain ⟨f, _, rfl⟩ := List.mem_map.mp he
      exact Or.inr (Or.inr ⟨"Birdhouse/root/" ++ f, "./" ++ f, rfl⟩)
    · simp at he

/-- Witness for C3 at the concrete run `node pipeline.js -p -v 1.2.3x`. -/
theorem C3_witness :
    (runMain envMalformedVersion).2 =
      .threw "Invalid version number format. Expected format is x, x.x, x.x.x, or x.x.x.x" ∧
    ∀ e ∈ (runMain envMalformedVersion).1, e = Ev.writeLockFile ∨
      (∃ s, e = Ev.runScript s) ∨ ∃ a b, e = Ev.copyFile a b :=
  C3_malformed_target_rejected_before_version_writes envMalformedVersion "1.2.3x"
    (by decide) (by decide) (by decide) (by decide) (by decide) (by decide)
    (by decide) (by decide) (by decide) (by decide) (by decide) (by decide)

/-! ## C5: exit codes -/

set_option maxRecDepth 100000 in
unseal String.ltb readFilesFromDirectory in
/-- **C5 counterexample.**  A production release whose manifest lists
`sitemap.xml` while that file does not exist on disk: `main` rejects with
the stat error, but the process exits with code 0 — not 1 — because the
top-level `.catch` swallows the rejection and `.then(() => exitPipeline())`
exits 0. -/
theorem C5_counterexample_missing_file_exits_zero :
    (runMain envMissingFile).2 =
      .threw "ENOENT: no such file or directory, stat sitemap.xml" ∧
    (runPipeline envMissingFile).2 = 0 :=
  ⟨by decide, by decide⟩

/-- **C5 (amended).**  The process exits 0 on help; it exits 1 when a
configuration file fails to load or a required configuration key is
missing; but an error thrown inside `main` — in particular the one raised
when a manifest file does not exist on disk before upload — is swallowed
by the broken top-level `.catch`, and the process exits 0 (not 1, as the
spec claims); normal completion also exits 0. -/
theorem C5_exit_codes (env : MainEnv) :
    (initializeFlag env.argv = false → helpFlag env.argv = true →
      (runPipeline env).2 = 0) ∧
    (initializeFlag env.argv = false → helpFlag env.argv = false →
      (env.argv.length == 2) = false → env.pipelineConfigLoads = false →
      (runPipeline env).2 = 1) ∧
    (initializeFlag env.argv = false → helpFlag env.argv = false →
      (env.argv.length == 2) = false → env.pipelineConfigLoads = true →
      localFlag env.argv = false → env.sftpConfigLoads = false →
      (runPipeline env).2 = 1) ∧
    (initializeFlag env.argv = false → helpFlag env.argv = false →
      (env.argv.length == 2) = false → env.pipelineConfigLoads = true →
      env.sftpConfigLoads = true →
      updateFlag env.argv = false → updateRootFlag env.argv = false →
      generateFaviconsFlag env.argv = false → generateIconsFlag env.argv = false →
      generateAppIconsFlag env.argv = false →
      (missingConfigs env (!localFlag env.argv)).isEmpty = false →
      localFlag env.argv = false →
      (runPipeline env).2 = 1) ∧
    (∀ mevs msg, initializeFlag env.argv = false → helpFlag env.argv = false →
      (env.argv.length == 2) = false → env.pipelineConfigLoads = true →
      env.sftpConfigLoads = true →
      runMain env = (mevs, .threw msg) →
      (runPipeline env).2 = 0) ∧
    (∀ mevs, initializeFlag env.argv = false → helpFlag env.argv = false →
      (env.argv.length == 2) = false → env.pipelineConfigLoads = true →
      env.sftpConfigLoads = true →
      runMain env = (mevs, .completed) →
      (runPipeline env).2 = 0) := by
  refine ⟨?_, ?_, ?_, ?_, ?_, ?_⟩
  · intro hinit hhelp
    simp [runPipeline, hinit, hhelp]
  · intro hinit hhelp hlen hcfg
    simp [runPipeline, hinit, hhelp, hlen, hcfg]
  · intro hinit hhelp hlen hcfg hlocal hsftp
    simp [runPipeline, hinit, hhelp, hlen, hcfg, hlocal, hsftp]
  · intro hinit hhelp hlen hcfg hsftp hupd hroot hgf hgi hga hmc hlocal
    have hmc2 : ¬(missingConfigs env true = []) := by
      rw [hlocal] at hmc
      simpa [List.isEmpty_iff] using hmc
    have h2 : (runMain env).2 = .exited 1 := by
      simp [runMain, hinit, hupd, hroot, hgf, hgi, hga, hmc2, hlocal]
    rcases hrm : runMain env with ⟨mevs, outc⟩
    rw [hrm] at h2
    simp only at h2
    subst h2
    simp [runPipeline, hinit, hhelp, hlen, hcfg, hsftp, hrm]
  · intro mevs msg hinit hhelp hlen hcfg hsftp hrm
    simp [runPipeline, hinit, hhelp, hlen, hcfg, hsftp, hrm]
  · intro mevs hinit hhelp hlen hcfg hsftp hrm
    simp [runPipeline, hinit, hhelp, hlen, hcfg, hsftp, hrm]

/-! ## C6: rollback without a backup -/

/-- **C6.**  When no `_BACKUP` directory exists on the server, `rollback`
performs no remote write at all — the primary remote directory is left
completely unchanged — and reports the failure
(`No backup version found for rollback.`) to the user. -/
theorem C6_rollback_without_backup_is_harmless (applicationPath : String)
    (connectOk backupExists : Bool)
    (hconn : connectOk = true) (hnb : backupExists = false) :
    (∀ e ∈ rollback connectOk backupExists applicationPath, isRemoteWrite e = false) ∧
    Ev.logMsg "No backup version found for rollback." ∈
      rollback connectOk backupExists applicationPath := by
  subst hconn hnb
  constructor
  · intro e he
    simp [rollback] at he
    rcases he with rfl | rfl | rfl | rfl | rfl <;> rfl
  · simp [rollback]

/-- Witness for C6: a concrete rollback against `my_app_production` with a
reachable server and no backup. -/
theorem C6_witness :
    (∀ e ∈ rollback true false "my_app_production", isRemoteWrite e = false) ∧
    Ev.logMsg "No backup version found for rollback." ∈
      rollback true false "my_app_production" :=
  C6_rollback_without_backup_is_harmless "my_app_production" true false rfl rfl

/-! ## C9: the htaccess file is the last remote write -/

lemma uploadFiles_shape (filesToUpload : List String) (applicationPath : String)
    (backupRequested primaryExists backupExists : Bool) (h : String) :
    ∃ l, uploadFiles filesToUpload applicationPath backupRequested primaryExists
        backupExists (some h) =
      l ++ [Ev.sftpPut ("/" ++ applicationPath ++ "/.htaccess")] := by
  refine ⟨(if backupRequested then
      if primaryExists then
        (if backupExists then [Ev.sftpRmdirRemote (applicationPath ++ "_BACKUP")] else []) ++
          [Ev.sftpMkdirRemote (applicationPath ++ "_BACKUP")] ++
          copySFTPDirectory applicationPath (applicationPath ++ "_BACKUP")
      else [Ev.logMsg "    No directory to backup."]
     else []) ++
    createDirectoriesOnServer filesToUpload applicationPath ++
    filesToUpload.map (fun f => Ev.sftpPut (uploadRemotePath applicationPath f)), ?_⟩
  simp [uploadFiles, uploadFilesToDirectory, List.append_assoc]

lemma filter_remoteWrite_getLast
    (l : List Ev) (x y : Ev) (hx : isRemoteWrite x = true) (hy : isRemoteWrite y = false) :
    ((l ++ [x] ++ [y]).filter isRemoteWrite).getLast? = some x := by
  simp [List.filter_append, hx, hy]

/-- **C9.**  With an htaccess file configured, `uploadFilesToDirectory`
transfers it after every file of the batch, and in a successful release
upload the `.htaccess` put is the very last remote write of the whole
operation. -/
theorem C9_htaccess_is_last_remote_write (filesToUpload filesToCache : List String)
    (applicationPath h : String) (env : UploadEnv)
    (hh : env.htaccessFile = some h)
    (hconn : env.connectOk = true) (hup : env.uploadOk = true)
    (hprod : env.productionFlag = true) :
    (uploadFilesToDirectory filesToUpload applicationPath (some h)).getLast? =
      some (Ev.sftpPut ("/" ++ applicationPath ++ "/.htaccess")) ∧
    (∀ f ∈ filesToUpload, Ev.sftpPut (uploadRemotePath applicationPath f) ∈
      (uploadFilesToDirectory filesToUpload applicationPath (some h)).dropLast) ∧
    ((uploadFilesToServer env filesToCache applicationPath).1.filter
      isRemoteWrite).getLast? =
      some (Ev.sftpPut ("/" ++ applicationPath ++ "/.htaccess")) := by
  refine ⟨?_, ?_, ?_⟩
  · simp [uploadFilesToDirectory]
  · intro f hf
    simp [uploadFilesToDirectory, List.dropLast_concat]
    exact ⟨f, hf, rfl⟩
  · have htrace : (uploadFilesToServer env filesToCache applicationPath).1 =
        [Ev.sftpConnect] ++
          uploadFiles (uploadBatch env filesToCache) applicationPath
            env.backupFlag env.primaryExists env.backupExists (some h) ++
          [Ev.sftpClose] := by
      simp [uploadFilesToServer, hconn, hup, hprod, hh]
    obtain ⟨l, hl⟩ := uploadFiles_shape (uploadBatch env filesToCache) applicationPath
      env.backupFlag env.primaryExists env.backupExists h
    have hfull : (uploadFilesToServer env filesToCache applicationPath).1 =
        ([Ev.sftpConnect] ++ l) ++
          [Ev.sftpPut ("/" ++ applicationPath ++ "/.htaccess")] ++ [Ev.sftpClose] := by
      rw [htrace, hl]
      simp [List.append_assoc]
    rw [hfull]
    exact filter_remoteWrite_getLast _ _ _ rfl rfl

/-- Witness for C9: a one-file batch to `app` with an htaccess file, on a
reachable server. -/
theorem C9_witness :
    (uploadFilesToDirectory ["a.js"] "app" (some "UPLOAD-THIS.htaccess")).getLast? =
      some (Ev.sftpPut ("/" ++ "app" ++ "/.htaccess")) ∧
    (∀ f ∈ ["a.js"], Ev.sftpPut (uploadRemotePath "app" f) ∈
      (uploadFilesToDirectory ["a.js"] "app" (some "UPLOAD-THIS.htaccess")).dropLast) ∧
    ((uploadFilesToServer (uploadEnvOf { baseEnv with
        htaccessFile := some "UPLOAD-THIS.htaccess" }) [] "app").1.filter
      isRemoteWrite).getLast? =
      some (Ev.sftpPut ("/" ++ "app" ++ "/.htaccess")) :=
  C9_htaccess_is_last_remote_write ["a.js"] [] "app" "UPLOAD-THIS.htaccess"
    (uploadEnvOf { baseEnv with htaccessFile := some "UPLOAD-THIS.htaccess" })
    rfl rfl rfl rfl

/-! ## C7: remote errors during a release upload -/

lemma find?_const_false (l : List String) : l.find? (fun _ => false) = none := by simp

lemma any_const_false (l : List String) : l.any (fun _ => false) = false := by simp

/-- **C7.**  When the SFTP connection or a remote operation fails during a
production release upload, `uploadFilesToServer` catches the error and
returns the failure sentinel `0` (zero files uploaded) instead of
rethrowing, the `finally` block still closes the connection, and `main`
continues: it completes normally, prints `Done.` instead of the success
message, and the log-statistics step still runs. -/
theorem C7_remote_error_returns_zero_and_stats_still_run (env : MainEnv)
    (hprod : productionFlag env.argv = true)
    (hlocal : localFlag env.argv = false)
    (hdel : deleteFlag env.argv = false)
    (hrb : rollbackFlag env.argv = false)
    (hinit : initializeFlag env.argv = false)
    (hupd : updateFlag env.argv = false)
    (hroot : updateRootFlag env.argv = false)
    (hgf : generateFaviconsFlag env.argv = false)
    (hgi : generateIconsFlag env.argv = false)
    (hga : generateAppIconsFlag env.argv = false)
    (hmc : (missingConfigs env (!localFlag env.argv)).isEmpty = true)
    (hcv : env.currentVersion.isSome = true)
    (hidx : versionFlagIndex env.argv = -1)
    (hmf : env.missingFiles = [])
    (hstats : env.statisticsFile = true)
    (hnl : disableStatisticsFlag env.argv = false)
    (hfail : env.connectOk = false ∨ env.uploadOk = false) :
    (uploadFilesToServer (uploadEnvOf env)
      (getFilesToCache env.fsDirs env.directoriesToInclude env.ignoredFileTypes)
      (getApplicationPath env env.argv)).2 = some 0 ∧
    Ev.sftpClose ∈ (uploadFilesToServer (uploadEnvOf env)
      (getFilesToCache env.fsDirs env.directoriesToInclude env.ignoredFileTypes)
      (getApplicationPath env env.argv)).1 ∧
    (runMain env).2 = .completed ∧
    Ev.writeStatistics ∈ (runMain env).1 ∧
    Ev.logMsg "Done." ∈ (runMain env).1 := by
  obtain ⟨v, hv⟩ := Option.isSome_iff_exists.mp hcv
  have hmc2 : missingConfigs env true = [] := by
    rw [hlocal] at hmc
    simpa [List.isEmpty_iff] using hmc
  have hpair : uploadFilesToServer (uploadEnvOf env)
      (getFilesToCache env.fsDirs env.directoriesToInclude env.ignoredFileTypes)
      (getApplicationPath env env.argv) =
      (if !env.connectOk then
        [Ev.logMsg "upload error with elapsed time", Ev.sftpClose]
       else [Ev.sftpConnect, Ev.logMsg "upload error with elapsed time", Ev.sftpClose],
       some 0) := by
    rcases hfail with hfc | hfu
    · simp [uploadFilesToServer, uploadEnvOf, hprod, hfc]
    · by_cases hfc : env.connectOk
      · simp [uploadFilesToServer, uploadEnvOf, hprod, hfc, hfu]
      · simp [uploadFilesToServer, uploadEnvOf, hprod, hfc]
  have h2nd : (uploadFilesToServer (uploadEnvOf env)
      (getFilesToCache env.fsDirs env.directoriesToInclude env.ignoredFileTypes)
      (getApplicationPath env env.argv)).2 = some 0 := by rw [hpair]
  refine ⟨h2nd, ?_, ?_⟩
  · rw [hpair]
    by_cases hfc : env.connectOk <;> simp [hfc]
  · have hdone : (runMain env).2 = .completed ∧
        Ev.writeStatistics ∈ (runMain env).1 ∧
        Ev.logMsg "Done." ∈ (runMain env).1 := by
      simp only [runMain, hprod, hlocal, hdel, hrb, hinit, hupd, hroot, hgf, hgi, hga,
        hv, hidx, hmf, hmc2, hstats, hnl]
      simp [find?_const_false, any_const_false, h2nd, hstats, hnl, hlocal, hdel, hrb,
        hprod, hmc2]
    exact hdone

/-- The C7 run: a production release whose SFTP connection fails. -/
def envConnectFail : MainEnv := { baseEnv with connectOk := false }

/-- Witness for C7 at the concrete failing-connection release. -/
theorem C7_witness :
    (uploadFilesToServer (uploadEnvOf envConnectFail)
      (getFilesToCache envConnectFail.fsDirs envConnectFail.directoriesToInclude
        envConnectFail.ignoredFileTypes)
      (getApplicationPath envConnectFail envConnectFail.argv)).2 = some 0 ∧
    Ev.sftpClose ∈ (uploadFilesToServer (uploadEnvOf envConnectFail)
      (getFilesToCache envConnectFail.fsDirs envConnectFail.directoriesToInclude
        envConnectFail.ignoredFileTypes)
      (getApplicationPath envConnectFail envConnectFail.argv)).1 ∧
    (runMain envConnectFail).2 = .completed ∧
    Ev.writeStatistics ∈ (runMain envConnectFail).1 ∧
    Ev.logMsg "Done." ∈ (runMain envConnectFail).1 :=
  C7_remote_error_returns_zero_and_stats_still_run envConnectFail
    (by decide) (by decide) (by decide) (by decide) (by decide) (by decide)
    (by decide) (by decide) (by decide) (by decide) (by decide) (by decide)
    (by decide) (by decide) (by decide) (by decide) (Or.inl rfl)

/-! ## C8 witness -/

/-- The spec example listing: `a.js`, `b.md`, `c.css`. -/
def exampleEntries : List FsEntry :=
  [.file "a.js" 10, .file "b.md" 5, .file "c.css" 3]

/-- Witness for C8 at the example of the spec: with `.md` ignored, `b.md`
is excluded and the directory yields exactly `[a.js, c.css]`. -/
theorem C8_witness :
    ("assets" ++ "/" ++ "b.md") ∉
      readFilesFromDirectory [".md"] "assets" exampleEntries [] ∧
    readFilesFromDirectory [".md"] "assets" exampleEntries [] =
      ["assets/a.js", "assets/c.css"] := by
  constructor
  · exact (C8_ignored_extensions_filtered [".md"] "assets" "b.md" 5 exampleEntries
      (by simp only [exampleEntries, forestWellFormed, goodName]; decide)
      (by simp [exampleEntries])).1 (by decide)
  · simp [readFilesFromDirectory, exampleEntries, jsStartsWith, extname, lastDotIdx]

end Birdhouse
